import Mathlib

/-!
Verification of `release/merge_release.py`: a shallow embedding of the
script's aggregation pipeline, followed by theorems about its behaviour.

The script reads per-season JSON files, filters and compacts their item
lists, groups them by year and season code, sorts the groups, and prints
one compact JSON document.  Python values are modelled by the `Json`
inductive; Python runtime errors (AttributeError, TypeError, KeyError and
JSON decode errors) by `PyError`; fallible evaluation by `Except`.
-/

namespace MergeRelease

/-- A JSON value as produced by Python's `json.load`.  Numbers in the input
data are integers (bgm ids), modelled by `Int`.  An object is an
association list in insertion order, mirroring Python's insertion-ordered
`dict`; a dict built by `json.load` or by the script has no duplicate keys. -/
inductive Json where
  | null : Json
  | bool : Bool → Json
  | num : Int → Json
  | str : String → Json
  | arr : List Json → Json
  | obj : List (String × Json) → Json
deriving Repr

/-- Python runtime errors that the script can raise (none are caught). -/
inductive PyError where
  | typeError : PyError
  | attributeError : PyError
  | keyError : PyError
  | decodeError : PyError
deriving DecidableEq, Repr

/-- Python truthiness of a value, as used by `if not item.get("bgm_id")`:
None, False, 0, the empty string, the empty list and the empty dict are
falsy; everything else is truthy. -/
def truthy : Json → Bool
  | .null => false
  | .bool b => b
  | .num n => n != 0
  | .str s => s != ""
  | .arr xs => !xs.isEmpty
  | .obj fs => !fs.isEmpty

/-- First-match lookup in an association list, i.e. lookup in an
insertion-ordered dict (whose keys are unique). -/
def alookup {α : Type} : List (String × α) → String → Option α
  | [], _ => none
  | (k', v) :: rest, k => if k' = k then some v else alookup rest k

/-- Model of Python's `x.get(key, default)`: on a dict, the stored value or
the default; on any non-dict value, an AttributeError (no `get` attribute). -/
def pyGet (j : Json) (k : String) (d : Json) : Except PyError Json :=
  match j with
  | .obj fs => .ok ((alookup fs k).getD d)
  | _ => .error .attributeError

/-- Model of Python's `x[key]` on a dict: the stored value, or a KeyError
when the key is absent; indexing a non-dict by a string key is a TypeError. -/
def pyIndex (j : Json) (k : String) : Except PyError Json :=
  match j with
  | .obj fs =>
    match alookup fs k with
    | some v => .ok v
    | none => .error .keyError
  | _ => .error .typeError

/-- Total variant of `x.get(key, default)` used only to state theorems:
for a non-dict it returns the default (where `pyGet` would error). -/
def objGetD (j : Json) (k : String) (d : Json) : Json :=
  match j with
  | .obj fs => (alookup fs k).getD d
  | _ => d

/-- The season-name abbreviation table SEASON_MAP of the script. -/
def SEASON_MAP : List (String × String) :=
  [("winter", "1"), ("spring", "4"), ("summer", "7"), ("fall", "10")]

/-- The rating abbreviation table RATING_MAP of the script. -/
def RATING_MAP : List (String × String) :=
  [("general", "gnr"), ("kids", "kids"), ("r18", "r18")]

/-- `SEASON_MAP.get(season_name, season_name)`: map a season name to its
code, unmapped names pass through unchanged. -/
def seasonMapGet (s : String) : String :=
  (alookup SEASON_MAP s).getD s

/-- The rating table lookup applied to a hashable key: a string key is
looked up in the table with itself as default; a hashable non-string key
(null, boolean, number) matches no table entry and the default, the value
itself, is returned.  This is only the hashable fragment of
`RATING_MAP.get(rating, rating)`; the full call, which raises on an
unhashable key, is `ratingMapLookup`. -/
def ratingMapGet : Json → Json
  | .str s => .str ((alookup RATING_MAP s).getD s)
  | other => other

/-- Model of `RATING_MAP.get(rating, rating)` (source line 82): Python's
`dict.get` hashes the key, so a list or dict rating is unhashable and
raises a TypeError; every other value is returned via the table lookup
with itself as default. -/
def ratingMapLookup : Json → Except PyError Json
  | .arr _ => .error .typeError
  | .obj _ => .error .typeError
  | other => .ok (ratingMapGet other)

/-- The statuses the script skips, SKIP_STATUS. -/
def SKIP_STATUS : List String := ["unconfirmed", "error"]

/-- Membership of a hashable status value in the skip set: a string is
compared against the set's elements; a hashable non-string status (None
included) equals no element.  This is only the hashable fragment of
`item.get("status") in SKIP_STATUS`; the full test, which raises on an
unhashable status, is `statusInSkip`. -/
def statusSkipped : Json → Bool
  | .str t => SKIP_STATUS.contains t
  | _ => false

/-- Model of `item.get("status") in SKIP_STATUS` (source line 70):
Python's set membership hashes the candidate, so a list or dict status is
unhashable and raises a TypeError; every other value is tested by
equality against the set's elements. -/
def statusInSkip : Json → Except PyError Bool
  | .arr _ => .error .typeError
  | .obj _ => .error .typeError
  | other => .ok (statusSkipped other)

/-- A word character for the regex class `\w`.  Python's `re` is
Unicode-aware; the season names in this data are ASCII, and the model uses
the ASCII fragment `[A-Za-z0-9_]`. -/
def isWordChar (c : Char) : Bool := c.isAlphanum || c == '_'

/-- Model of `re.match(r"(\d{4})-(\w+)", season)` on the character list of
the season string.  `re.match` anchors at the start of the string only;
the pattern has no `$`, so after the greedy run of word characters any
trailing characters are permitted.  Returns the two captured groups
(year digits, season-name word run) on success. -/
def reMatchList : List Char → Option (String × String)
  | d1 :: d2 :: d3 :: d4 :: h :: rest =>
    if d1.isDigit && d2.isDigit && d3.isDigit && d4.isDigit && h == '-' then
      let w := rest.takeWhile isWordChar
      if w.isEmpty then none
      else some (String.mk [d1, d2, d3, d4], String.mk w)
    else none
  | _ => none

/-- `re.match(r"(\d{4})-(\w+)", season)` on the season string. -/
def reMatchSeason (s : String) : Option (String × String) :=
  reMatchList s.toList

/-- Modelled from the spec's words, for comparison with `reMatchSeason`
(which is the source's behaviour): the fully anchored pattern
matching four digits, a hyphen, then word characters
reaching the end of the string with nothing following. -/
def specMatchList : List Char → Option (String × String)
  | d1 :: d2 :: d3 :: d4 :: h :: rest =>
    if (d1.isDigit && d2.isDigit && d3.isDigit && d4.isDigit && h == '-')
        && !rest.isEmpty && rest.all isWordChar then
      some (String.mk [d1, d2, d3, d4], String.mk rest)
    else none
  | _ => none

/-- The anchored pattern of the spec's words, on the season string. -/
def specSeasonMatch (s : String) : Option (String × String) :=
  specMatchList s.toList

/-- The per-item transform of the loop body (source lines 68-83): returns
`none` when the item is skipped, `some compact` when a CompactItem is
emitted, and an error when the Python code would raise (errors propagate
in evaluation order, written as explicit matches). -/
def processItem (item : Json) : Except PyError (Option Json) :=
  match pyGet item "status" .null with
  | .error e => .error e
  | .ok status =>
    match statusInSkip status with
    | .error e => .error e
    | .ok skip =>
      if skip then .ok none
      else
        match pyGet item "bgm_id" .null with
        | .error e => .error e
        | .ok bgmId =>
          if !truthy bgmId then .ok none
          else
            match pyGet item "mal" (.obj []) with
            | .error e => .error e
            | .ok mal =>
              match pyGet mal "media_type" .null with
              | .error e => .error e
              | .ok mediaType =>
                match pyGet mal "rating" .null with
                | .error e => .error e
                | .ok rating =>
                  match pyIndex item "bgm_id" with
                  | .error e => .error e
                  | .ok idv =>
                    match ratingMapLookup rating with
                    | .error e => .error e
                    | .ok rcode =>
                      .ok (some (.obj
                        [("id", idv), ("m", mediaType), ("r", rcode)]))

/-- Model of Python's `for item in x`: a list iterates its elements, a dict
its keys, a string its characters; other values raise a TypeError. -/
def pyIter (j : Json) : Except PyError (List Json) :=
  match j with
  | .arr xs => .ok xs
  | .obj fs => .ok (fs.map fun p => Json.str p.1)
  | .str s => .ok (s.toList.map fun c => Json.str (String.mk [c]))
  | _ => .error .typeError

/-- The item loop: process each item in order, collecting the emitted
CompactItems; the first raised error aborts. -/
def processItems : List Json → Except PyError (List Json)
  | [] => .ok []
  | x :: xs =>
    match processItem x with
    | .error e => .error e
    | .ok r =>
      match processItems xs with
      | .error e => .error e
      | .ok rest =>
        .ok (match r with
          | some c => c :: rest
          | none => rest)

/-- The per-file transform (source lines 58-83): `none` when the file is
silently skipped because its season field does not match the pattern,
`some (year, seasonKey, items)` when it contributes.  Calling `re.match`
on a non-string season value is a TypeError. -/
def processFile (data : Json) : Except PyError (Option (String × String × List Json)) :=
  match pyGet data "season" (.str "") with
  | .error e => .error e
  | .ok (.str s) =>
    match reMatchSeason s with
    | none => .ok none
    | some (year, seasonName) =>
      match pyGet data "items" (.arr []) with
      | .error e => .error e
      | .ok itemsVal =>
        match pyIter itemsVal with
        | .error e => .error e
        | .ok itemList =>
          match processItems itemList with
          | .error e => .error e
          | .ok items => .ok (some (year, seasonMapGet seasonName, items))
  | .ok _ => .error .typeError

/-- The inner mapping season-code → item list. -/
abbrev InnerDict := List (String × List Json)

/-- The accumulating result mapping year → season-code → item list. -/
abbrev ResultDict := List (String × InnerDict)

/-- Python's `d[k] = v` on an insertion-ordered dict: replace the value in
place when the key is present, append at the end when it is not. -/
def dictSet {α : Type} : List (String × α) → String → α → List (String × α)
  | [], k, v => [(k, v)]
  | (k', v') :: rest, k, v =>
    if k' = k then (k', v) :: rest else (k', v') :: dictSet rest k v

/-- Source lines 85-87: ensure `result[year]` exists, then
`result[year][season_key] = items` (overwriting any prior entry). -/
def storeResult (result : ResultDict) (year seasonKey : String)
    (items : List Json) : ResultDict :=
  dictSet result year (dictSet ((alookup result year).getD []) seasonKey items)

/-- One iteration of the file loop on the accumulating result. -/
def step (result : ResultDict) (data : Json) : Except PyError ResultDict :=
  match processFile data with
  | .error e => .error e
  | .ok none => .ok result
  | .ok (some (year, seasonKey, items)) => .ok (storeResult result year seasonKey items)

/-- The file loop: each element of the list is the outcome of `json.load`
on one discovered file, in discovery order — `.ok` the parsed document, or
`.error` a JSON decode error, which propagates uncaught. -/
def loadAndBuild : ResultDict → List (Except PyError Json) → Except PyError ResultDict
  | acc, [] => .ok acc
  | acc, f :: fs =>
    match f with
    | .error e => .error e
    | .ok data =>
      match step acc data with
      | .error e => .error e
      | .ok acc' => loadAndBuild acc' fs

/-- The season_order table of the script. -/
def SEASON_ORDER : List (String × Nat) :=
  [("1", 0), ("4", 1), ("7", 2), ("10", 3)]

/-- `season_order.get(x, 99)`: sort key of a season code. -/
def seasonOrder (k : String) : Nat :=
  (alookup SEASON_ORDER k).getD 99

/-- Comparison of season codes by their sort key. -/
def seasonLe (a b : String) : Prop := seasonOrder a ≤ seasonOrder b

instance : DecidableRel seasonLe := fun _ _ => Nat.decLe _ _

instance : IsTotal String seasonLe := ⟨fun _ _ => Nat.le_total _ _⟩

instance : IsTrans String seasonLe := ⟨fun _ _ _ => Nat.le_trans⟩

/-- Lexicographic order on year strings, Python's default string order. -/
def stringLe (a b : String) : Prop := a ≤ b

instance : DecidableRel stringLe := fun a b => inferInstanceAs (Decidable (a ≤ b))

instance : IsTotal String stringLe := ⟨fun a b => le_total a b⟩

instance : IsTrans String stringLe := ⟨fun _ _ _ => le_trans⟩

/-- `sorted(result[year].keys(), key=lambda x: season_order.get(x, 99))`
followed by the comprehension that looks each key back up.  Python's
`sorted` is a stable comparison sort; `List.insertionSort` with the
non-strict key order is likewise stable. -/
def sortInner (inner : InnerDict) : InnerDict :=
  (List.insertionSort seasonLe (inner.map Prod.fst)).map
    fun k => (k, (alookup inner k).getD [])

/-- Source lines 90-96: years sorted ascending, and within each year the
season keys sorted by canonical quarter order with unknown codes last. -/
def sortResult (result : ResultDict) : ResultDict :=
  (List.insertionSort stringLe (result.map Prod.fst)).map
    fun y => (y, sortInner ((alookup result y).getD []))

/-- The whole run on the discovered files' parse outcomes, producing the
final document (as the ordered mapping that is serialized to stdout). -/
def mainOutput (files : List (Except PyError Json)) : Except PyError ResultDict :=
  match loadAndBuild [] files with
  | .error e => .error e
  | .ok result => .ok (sortResult result)

/-- Two-level lookup `result[year][seasonKey]`, read optionally. -/
def alookup2 (d : ResultDict) (y sk : String) : Option (List Json) :=
  match alookup d y with
  | some inner => alookup inner sk
  | none => none

/-- A canonical season code: one of the four quarter codes, i.e. a code
with an entry in the season order table. -/
def isCanon (k : String) : Bool := seasonOrder k != 99

/-- A season document whose season field carries characters after the
season-name word run (used to compare the source's unanchored pattern
with the spec's anchored one). -/
def fileTrailingJunk : Json :=
  .obj [("season", .str "2026-winter-extra"), ("items", .arr [])]

/-- A winter-2026 document with a single includable item of id 1. -/
def fileWinterA : Json :=
  .obj [("season", .str "2026-winter"),
    ("items", .arr [.obj [("status", .str "ok"), ("bgm_id", .num 1), ("mal", .obj [])]])]

/-- A winter-2026 document with a single includable item of id 2. -/
def fileWinterB : Json :=
  .obj [("season", .str "2026-winter"),
    ("items", .arr [.obj [("status", .str "ok"), ("bgm_id", .num 2), ("mal", .obj [])]])]

/-- The CompactItem emitted for an includable item of the given id whose
mal object is empty: media type and rating both null. -/
def compactOf (n : Int) : Json :=
  .obj [("id", .num n), ("m", .null), ("r", .null)]

/-- A summer-2025 document with no items. -/
def fileSummer : Json :=
  .obj [("season", .str "2025-summer"), ("items", .arr [])]

/-- An item whose mal field is explicitly JSON null, with a non-skipped
status and a truthy bgm id. -/
def itemMalNull : Json :=
  .obj [("status", .str "confirmed"), ("bgm_id", .num 1), ("mal", .null)]

/-- A season document containing only `itemMalNull`. -/
def fileMalNull : Json :=
  .obj [("season", .str "2026-winter"), ("items", .arr [itemMalNull])]

/-- An item whose mal.rating is a JSON list, with a non-skipped status and
a truthy bgm id: the rating value is unhashable in Python. -/
def itemRatingList : Json :=
  .obj [("status", .str "confirmed"), ("bgm_id", .num 1),
    ("mal", .obj [("media_type", .str "tv"), ("rating", .arr [])])]

/-- A season document containing only `itemRatingList`. -/
def fileRatingList : Json :=
  .obj [("season", .str "2026-winter"), ("items", .arr [itemRatingList])]

/-- A confirmed tv item with a general rating, id 530110. -/
def itemConfirmed : Json :=
  .obj [("status", .str "confirmed"), ("bgm_id", .num 530110),
    ("mal", .obj [("media_type", .str "tv"), ("rating", .str "general")])]

/-- An item skipped for its error status. -/
def itemErrorStatus : Json :=
  .obj [("status", .str "error"), ("bgm_id", .num 1), ("mal", .obj [])]

/-- The CompactItem the script emits for `itemConfirmed`. -/
def compactConfirmed : Json :=
  .obj [("id", .num 530110), ("m", .str "tv"), ("r", .str "gnr")]

/-- The end-to-end scenario document: one includable item, one skipped. -/
def fileEndToEnd : Json :=
  .obj [("season", .str "2026-winter"),
    ("items", .arr [itemConfirmed, itemErrorStatus])]

/-- The (year, seasonKey, items) triples contributed by the given parsed
files, in processing order: one triple per file whose season matches. -/
def contribs (files : List Json) : List (String × String × List Json) :=
  files.filterMap fun d =>
    match processFile d with
    | .ok (some t) => some t
    | _ => none

/-- Store one contribution triple into the result mapping. -/
def storeTriple (r : ResultDict) (t : String × String × List Json) : ResultDict :=
  storeResult r t.1 t.2.1 t.2.2

/-- Fold a list of contribution triples into the result mapping. -/
def foldStore (acc : ResultDict) (ts : List (String × String × List Json)) : ResultDict :=
  ts.foldl storeTriple acc

/-- The season code carrying the given canonical sort key (inverse of
`seasonOrder` on canonical codes). -/
def canonOfOrder : Nat → String
  | 0 => "1"
  | 1 => "4"
  | 2 => "7"
  | 3 => "10"
  | _ => ""

instance : IsAntisymm String stringLe := ⟨fun _ _ h1 h2 => le_antisymm h1 h2⟩

/-- A one-year result dict whose season keys arrive out of order and
include a non-canonical code. -/
def exSortInput : ResultDict :=
  [("2025", [("10", []), ("1", []), ("x", []), ("7", [])])]

/-- The inner dict of `exSortInput` after sorting: canonical codes in
quarter order, the unknown code last. -/
def exSortedInner : InnerDict :=
  [("1", []), ("7", []), ("10", []), ("x", [])]

/-! Lemmas about dict updates and two-level lookups. -/

theorem alookup_dictSet_self {α : Type} (d : List (String × α)) (k : String) (v : α) :
    alookup (dictSet d k v) k = some v := by
  induction d with
  | nil => simp [dictSet, alookup]
  | cons p rest ih =>
    obtain ⟨k', v'⟩ := p
    by_cases h : k' = k
    · simp [dictSet, h, alookup]
    · simp [dictSet, h, alookup, ih]

theorem alookup_dictSet_ne {α : Type} (d : List (String × α)) (k : String) (v : α)
    (q : String) (h : q ≠ k) : alookup (dictSet d k v) q = alookup d q := by
  have hk : ¬(k = q) := fun e => h e.symm
  induction d with
  | nil => simp [dictSet, alookup, hk]
  | cons p rest ih =>
    obtain ⟨k', v'⟩ := p
    by_cases h' : k' = k
    · subst h'
      simp [dictSet, alookup, hk]
    · by_cases h2 : k' = q
      · simp [dictSet, h', alookup, h2, h]
      · simp [dictSet, h', alookup, h2, ih]

theorem alookup2_storeResult_self (d : ResultDict) (y sk : String) (items : List Json) :
    alookup2 (storeResult d y sk items) y sk = some items := by
  unfold storeResult alookup2
  rw [alookup_dictSet_self]
  show alookup (dictSet ((alookup d y).getD []) sk items) sk = some items
  exact alookup_dictSet_self _ _ _

theorem alookup2_storeResult_ne (d : ResultDict) (y sk : String) (items : List Json)
    (y' sk' : String) (h : y' ≠ y ∨ sk' ≠ sk) :
    alookup2 (storeResult d y sk items) y' sk' = alookup2 d y' sk' := by
  unfold storeResult alookup2
  by_cases hy : y' = y
  · subst hy
    rcases h with h | h
    · exact absurd rfl h
    · rw [alookup_dictSet_self]
      show alookup (dictSet ((alookup d y').getD []) sk items) sk'
          = match alookup d y' with
            | some inner => alookup inner sk'
            | none => none
      rw [alookup_dictSet_ne _ _ _ _ h]
      cases halo : alookup d y' with
      | none => simp [alookup]
      | some inner => simp
  · rw [alookup_dictSet_ne _ _ _ _ hy]

/-! Characterizations of the per-item transform. -/

theorem truthy_getD_some (o : Option Json) (h : truthy (o.getD Json.null) = true) :
    ∃ v, o = some v ∧ truthy v = true := by
  cases o with
  | none => simp [truthy] at h
  | some v => exact ⟨v, rfl, h⟩

theorem statusInSkip_ok (s : Json) (b : Bool) (h : statusInSkip s = .ok b) :
    statusSkipped s = b := by
  cases s with
  | arr xs => simp [statusInSkip] at h
  | obj fs => simp [statusInSkip] at h
  | null => simp only [statusInSkip, Except.ok.injEq] at h; exact h
  | bool b2 => simp only [statusInSkip, Except.ok.injEq] at h; exact h
  | num n => simp only [statusInSkip, Except.ok.injEq] at h; exact h
  | str t => simp only [statusInSkip, Except.ok.injEq] at h; exact h

theorem ratingMapLookup_ok (r c : Json) (h : ratingMapLookup r = .ok c) :
    c = ratingMapGet r := by
  cases r with
  | arr xs => simp [ratingMapLookup] at h
  | obj fs => simp [ratingMapLookup] at h
  | null => simp only [ratingMapLookup, Except.ok.injEq] at h; exact h.symm
  | bool b => simp only [ratingMapLookup, Except.ok.injEq] at h; exact h.symm
  | num n => simp only [ratingMapLookup, Except.ok.injEq] at h; exact h.symm
  | str t => simp only [ratingMapLookup, Except.ok.injEq] at h; exact h.symm

theorem processItem_not_obj (j : Json) (hj : ∀ fs, j ≠ Json.obj fs) :
    processItem j = .error .attributeError := by
  cases j with
  | obj fs => exact absurd rfl (hj fs)
  | null => rfl
  | bool b => rfl
  | num n => rfl
  | str s => rfl
  | arr xs => rfl

theorem processItem_obj_skip_iff (fs : List (String × Json)) (res : Option Json)
    (h : processItem (.obj fs) = .ok res) :
    res.isSome = (!statusSkipped ((alookup fs "status").getD .null)
                  && truthy ((alookup fs "bgm_id").getD .null)) := by
  simp only [processItem, pyGet] at h
  cases hsi : statusInSkip ((alookup fs "status").getD .null) with
  | error e => rw [hsi] at h; cases h
  | ok skip =>
    have hst := statusInSkip_ok _ _ hsi
    simp only [hsi] at h
    cases skip with
    | true =>
      rw [if_pos rfl] at h
      cases h
      simp [hst]
    | false =>
      rw [if_neg (by simp)] at h
      by_cases hb : truthy ((alookup fs "bgm_id").getD .null) = true
      · rw [if_neg (by simp [hb])] at h
        obtain ⟨idv, hidv, hidvT⟩ := truthy_getD_some _ hb
        cases hm : (alookup fs "mal").getD (.obj []) with
        | obj ms =>
          rw [hm] at h
          simp only [pyGet, pyIndex, hidv] at h
          cases hr : ratingMapLookup ((alookup ms "rating").getD .null) with
          | error e => rw [hr] at h; cases h
          | ok rc =>
            simp only [hr] at h
            cases h
            simp [hst, hb]
        | null => rw [hm] at h; simp [pyGet] at h
        | bool b => rw [hm] at h; simp [pyGet] at h
        | num n => rw [hm] at h; simp [pyGet] at h
        | str s => rw [hm] at h; simp [pyGet] at h
        | arr xs => rw [hm] at h; simp [pyGet] at h
      · have hb' : truthy ((alookup fs "bgm_id").getD .null) = false :=
          Bool.not_eq_true _ ▸ Bool.eq_false_iff.mpr hb
        rw [if_pos (by simp [hb'])] at h
        cases h
        simp [hb']

theorem processItem_ok_some (item : Json) (out : Json)
    (h : processItem item = .ok (some out)) :
    ∃ fs idv ms,
      item = .obj fs
      ∧ alookup fs "bgm_id" = some idv
      ∧ truthy idv = true
      ∧ pyIndex item "bgm_id" = .ok idv
      ∧ (alookup fs "mal").getD (.obj []) = .obj ms
      ∧ ratingMapLookup ((alookup ms "rating").getD .null)
          = .ok (ratingMapGet ((alookup ms "rating").getD .null))
      ∧ out = .obj [("id", idv),
          ("m", (alookup ms "media_type").getD .null),
          ("r", ratingMapGet ((alookup ms "rating").getD .null))] := by
  cases item with
  | obj fs =>
    simp only [processItem, pyGet] at h
    cases hsi : statusInSkip ((alookup fs "status").getD .null) with
    | error e => rw [hsi] at h; cases h
    | ok skip =>
      simp only [hsi] at h
      cases skip with
      | true =>
        rw [if_pos rfl] at h
        cases h
      | false =>
        rw [if_neg (by simp)] at h
        by_cases hb : truthy ((alookup fs "bgm_id").getD .null) = true
        · rw [if_neg (by simp [hb])] at h
          obtain ⟨idv, hidv, hidvT⟩ := truthy_getD_some _ hb
          cases hm : (alookup fs "mal").getD (.obj []) with
          | obj ms =>
            rw [hm] at h
            simp only [pyGet, pyIndex, hidv] at h
            cases hr : ratingMapLookup ((alookup ms "rating").getD .null) with
            | error e => rw [hr] at h; cases h
            | ok rc =>
              have hrc := ratingMapLookup_ok _ _ hr
              simp only [hr] at h
              cases h
              exact ⟨fs, idv, ms, rfl, hidv, hidvT, by simp [pyIndex, hidv], hm,
                hrc ▸ hr, by rw [hrc]⟩
          | null => rw [hm] at h; simp [pyGet] at h
          | bool b => rw [hm] at h; simp [pyGet] at h
          | num n => rw [hm] at h; simp [pyGet] at h
          | str s => rw [hm] at h; simp [pyGet] at h
          | arr xs => rw [hm] at h; simp [pyGet] at h
        · have hb' : truthy ((alookup fs "bgm_id").getD .null) = false :=
            Bool.not_eq_true _ ▸ Bool.eq_false_iff.mpr hb
          rw [if_pos (by simp [hb'])] at h
          cases h
  | null => simp [processItem, pyGet] at h
  | bool b => simp [processItem, pyGet] at h
  | num n => simp [processItem, pyGet] at h
  | str s => simp [processItem, pyGet] at h
  | arr xs => simp [processItem, pyGet] at h

/-- Claim C10: the per-item transform is not total on items whose mal
field is explicitly JSON null: for an item with a non-skipped status and a
truthy bgm id but mal equal to null, processing raises an AttributeError
instead of emitting a CompactItem with null m and r, and a run over a file
containing such an item aborts with that error. -/
theorem c10_mal_null_raises :
    processItem itemMalNull = .error .attributeError
  ∧ processFile fileMalNull = .error .attributeError
  ∧ mainOutput [.ok fileMalNull] = .error .attributeError :=
  ⟨rfl, rfl, rfl⟩

/-- Claim C6: when a later file resolves to the same (year, season code)
pair as an earlier one, its item list completely replaces the earlier one
in the result mapping with no error: both steps succeed, the stored entry
afterwards is exactly the later list, and every other key is untouched. -/
theorem c6_overwrite (r : ResultDict) (dataA dataB : Json) (y sk : String)
    (itsA itsB : List Json)
    (hA : processFile dataA = .ok (some (y, sk, itsA)))
    (hB : processFile dataB = .ok (some (y, sk, itsB))) :
    step r dataA = .ok (storeResult r y sk itsA)
  ∧ step (storeResult r y sk itsA) dataB
      = .ok (storeResult (storeResult r y sk itsA) y sk itsB)
  ∧ alookup2 (storeResult (storeResult r y sk itsA) y sk itsB) y sk = some itsB
  ∧ (∀ y' sk', y' ≠ y ∨ sk' ≠ sk →
      alookup2 (storeResult (storeResult r y sk itsA) y sk itsB) y' sk'
        = alookup2 r y' sk') := by
  refine ⟨by simp [step, hA], by simp [step, hB], alookup2_storeResult_self _ _ _ _, ?_⟩
  intro y' sk' h
  rw [alookup2_storeResult_ne _ _ _ _ _ _ h, alookup2_storeResult_ne _ _ _ _ _ _ h]

/-- Claim C9: the direct `item["bgm_id"]` lookup performed while building
a CompactItem never fails, because the item already passed the truthy
bgm-id guard; every emitted CompactItem carries that truthy id. -/
theorem c9_bgm_lookup_safe (item out : Json)
    (h : processItem item = .ok (some out)) :
    ∃ idv mt rt, pyIndex item "bgm_id" = .ok idv ∧ truthy idv = true
      ∧ out = .obj [("id", idv), ("m", mt), ("r", rt)] := by
  obtain ⟨fs, idv, ms, _, _, hT, hIdx, _, _, hout⟩ := processItem_ok_some item out h
  exact ⟨idv, _, _, hIdx, hT, hout⟩

theorem c9_bgm_lookup_safe_witness :
    ∃ idv mt rt, pyIndex itemConfirmed "bgm_id" = .ok idv ∧ truthy idv = true
      ∧ compactConfirmed = .obj [("id", idv), ("m", mt), ("r", rt)] :=
  c9_bgm_lookup_safe itemConfirmed compactConfirmed rfl

theorem processItems_mem (xs : List Json) (out : List Json)
    (h : processItems xs = .ok out) :
    ∀ c, c ∈ out ↔ ∃ x, x ∈ xs ∧ processItem x = .ok (some c) := by
  induction xs generalizing out with
  | nil =>
    cases h
    simp
  | cons x xs ih =>
    simp only [processItems] at h
    cases hx : processItem x with
    | error e => rw [hx] at h; cases h
    | ok r =>
      rw [hx] at h
      cases hrest : processItems xs with
      | error e => rw [hrest] at h; cases h
      | ok rest =>
        rw [hrest] at h
        cases h
        intro c
        cases r with
        | some c0 =>
          simp only [List.mem_cons]
          constructor
          · rintro (rfl | hc)
            · exact ⟨x, Or.inl rfl, hx⟩
            · obtain ⟨x', hx', hp⟩ := (ih rest hrest c).mp hc
              exact ⟨x', Or.inr hx', hp⟩
          · rintro ⟨x', (rfl | hx'), hp⟩
            · rw [hx] at hp
              cases hp
              exact Or.inl rfl
            · exact Or.inr ((ih rest hrest c).mpr ⟨x', hx', hp⟩)
        | none =>
          constructor
          · intro hc
            obtain ⟨x', hx', hp⟩ := (ih rest hrest c).mp hc
            exact ⟨x', List.mem_cons_of_mem x hx', hp⟩
          · rintro ⟨x', hx', hp⟩
            rcases List.mem_cons.mp hx' with rfl | hx'
            · rw [hx] at hp
              cases hp
            · exact (ih rest hrest c).mpr ⟨x', hx', hp⟩

/-- Claim C1: an item of a processed file yields a CompactItem in the
file's output list exactly when its status is not in the skip set and its
bgm id is truthy: for every item its emission flag equals the filter
condition, every output element comes from some input item, and every
emitted CompactItem is in the output list. -/
theorem c1_item_filter (xs : List Json) (out : List Json)
    (h : processItems xs = .ok out) :
    (∀ x ∈ xs, ∀ res, processItem x = .ok res →
        res.isSome = (!statusSkipped (objGetD x "status" .null)
                      && truthy (objGetD x "bgm_id" .null)))
  ∧ (∀ c ∈ out, ∃ x, x ∈ xs ∧ processItem x = .ok (some c))
  ∧ (∀ x ∈ xs, ∀ c, processItem x = .ok (some c) → c ∈ out) := by
  refine ⟨?_, ?_, ?_⟩
  · intro x _ res hres
    cases x with
    | obj fs => exact processItem_obj_skip_iff fs res hres
    | null => simp [processItem, pyGet] at hres
    | bool b => simp [processItem, pyGet] at hres
    | num n => simp [processItem, pyGet] at hres
    | str s => simp [processItem, pyGet] at hres
    | arr ys => simp [processItem, pyGet] at hres
  · intro c hc
    exact (processItems_mem xs out h c).mp hc
  · intro x hx c hc
    exact (processItems_mem xs out h c).mpr ⟨x, hx, hc⟩

theorem c1_item_filter_witness :
    (∀ x ∈ [itemConfirmed, itemErrorStatus], ∀ res, processItem x = .ok res →
        res.isSome = (!statusSkipped (objGetD x "status" .null)
                      && truthy (objGetD x "bgm_id" .null)))
  ∧ (∀ c ∈ [compactConfirmed], ∃ x, x ∈ [itemConfirmed, itemErrorStatus]
        ∧ processItem x = .ok (some c))
  ∧ (∀ x ∈ [itemConfirmed, itemErrorStatus], ∀ c, processItem x = .ok (some c) →
        c ∈ [compactConfirmed]) :=
  c1_item_filter [itemConfirmed, itemErrorStatus] [compactConfirmed] rfl

theorem c6_overwrite_witness :
    step [] fileWinterA = .ok (storeResult [] "2026" "1" [compactOf 1])
  ∧ step (storeResult [] "2026" "1" [compactOf 1]) fileWinterB
      = .ok (storeResult (storeResult [] "2026" "1" [compactOf 1]) "2026" "1" [compactOf 2])
  ∧ alookup2 (storeResult (storeResult [] "2026" "1" [compactOf 1]) "2026" "1" [compactOf 2])
      "2026" "1" = some [compactOf 2]
  ∧ (∀ y' sk', y' ≠ "2026" ∨ sk' ≠ "1" →
      alookup2 (storeResult (storeResult [] "2026" "1" [compactOf 1]) "2026" "1" [compactOf 2])
        y' sk' = alookup2 [] y' sk') :=
  c6_overwrite [] fileWinterA fileWinterB "2026" "1" [compactOf 1] [compactOf 2] rfl rfl

/-! Characterizations of the per-file transform. -/

theorem processFile_not_obj (j : Json) (hj : ∀ fs, j ≠ Json.obj fs) :
    processFile j = .error .attributeError := by
  cases j with
  | obj fs => exact absurd rfl (hj fs)
  | null => rfl
  | bool b => rfl
  | num n => rfl
  | str s => rfl
  | arr xs => rfl

theorem processFile_obj_skip (fs : List (String × Json)) (s : String)
    (hs : (alookup fs "season").getD (.str "") = .str s)
    (hm : reMatchSeason s = none) :
    processFile (.obj fs) = .ok none := by
  simp only [processFile, pyGet, hs, hm]

theorem processFile_ok_some_inv (fs : List (String × Json)) (y sk : String)
    (items : List Json)
    (h : processFile (.obj fs) = .ok (some (y, sk, items))) :
    ∃ s sn, (alookup fs "season").getD (.str "") = .str s
      ∧ reMatchSeason s = some (y, sn)
      ∧ sk = seasonMapGet sn
      ∧ ∃ xs, pyIter ((alookup fs "items").getD (.arr [])) = .ok xs
          ∧ processItems xs = .ok items := by
  cases hsv : (alookup fs "season").getD (.str "") with
  | str s =>
    simp only [processFile, pyGet, hsv] at h
    cases hm : reMatchSeason s with
    | none => simp [hm] at h
    | some p =>
      obtain ⟨yy, sn⟩ := p
      simp only [hm] at h
      cases hit : pyIter ((alookup fs "items").getD (.arr [])) with
      | error e => simp [hit] at h
      | ok xs =>
        simp only [hit] at h
        cases hpr : processItems xs with
        | error e => simp [hpr] at h
        | ok its =>
          simp only [hpr, Except.ok.injEq, Option.some.injEq, Prod.mk.injEq] at h
          obtain ⟨h1, h2, h3⟩ := h
          exact ⟨s, sn, rfl, h1 ▸ hm, h2.symm, xs, rfl, h3 ▸ hpr⟩
  | null => simp [processFile, pyGet, hsv] at h
  | bool b => simp [processFile, pyGet, hsv] at h
  | num n => simp [processFile, pyGet, hsv] at h
  | arr xs => simp [processFile, pyGet, hsv] at h
  | obj gs => simp [processFile, pyGet, hsv] at h

theorem anchored_implies_unanchored (cs : List Char) (p : String × String)
    (hp : specMatchList cs = some p) : reMatchList cs = some p := by
  match cs with
  | [] => simp [specMatchList] at hp
  | [d1] => simp [specMatchList] at hp
  | [d1, d2] => simp [specMatchList] at hp
  | [d1, d2, d3] => simp [specMatchList] at hp
  | [d1, d2, d3, d4] => simp [specMatchList] at hp
  | d1 :: d2 :: d3 :: d4 :: h5 :: rest =>
    simp only [specMatchList] at hp
    split_ifs at hp with hc
    · simp only [Bool.and_eq_true] at hc
      obtain ⟨⟨hdig, hne⟩, hall⟩ := hc
      have htw : rest.takeWhile isWordChar = rest :=
        List.takeWhile_eq_self_iff.mpr (by simpa using hall)
      have hemp : rest.isEmpty = false := by
        cases hh : rest.isEmpty
        · rfl
        · rw [hh] at hne; simp at hne
      simp only [reMatchList]
      rw [if_pos (show (d1.isDigit && d2.isDigit && d3.isDigit && d4.isDigit
            && h5 == '-') = true by simp only [Bool.and_eq_true]; exact hdig)]
      simp only [htw, hemp]
      rw [if_neg (by simp)]
      exact hp

/-- Claim C2 counterexample: the season string of `fileTrailingJunk` does
not match the spec's anchored pattern (word characters must reach the end
of the string), yet the file contributes output: the source's pattern has
no end anchor, so the match succeeds on the prefix and the file is stored
under year 2026, season code 1. -/
theorem c2_counterexample :
    specSeasonMatch "2026-winter-extra" = none
  ∧ reMatchSeason "2026-winter-extra" = some ("2026", "winter")
  ∧ processFile fileTrailingJunk = .ok (some ("2026", "1", []))
  ∧ mainOutput [.ok fileTrailingJunk] = .ok [("2026", [("1", [])])] :=
  ⟨rfl, rfl, rfl, rfl⟩

/-- Claim C2 amended: a file contributes output iff its season field
(default empty string) has a prefix matching the unanchored pattern: four
digits, a hyphen, then at least one word character, with arbitrary
trailing characters permitted after the word run; a file without such a
prefix is silently skipped with no error, and every match of the spec's
anchored pattern still matches with identical groups. -/
theorem c2_season_pattern (fs : List (String × Json)) (s : String)
    (hs : (alookup fs "season").getD (.str "") = .str s) :
    (reMatchSeason s = none →
        processFile (.obj fs) = .ok none ∧ ∀ r, step r (.obj fs) = .ok r)
  ∧ (∀ y sk items, processFile (.obj fs) = .ok (some (y, sk, items)) →
        ∃ sn, reMatchSeason s = some (y, sn) ∧ sk = seasonMapGet sn)
  ∧ (∀ p, specSeasonMatch s = some p → reMatchSeason s = some p) := by
  refine ⟨fun hm => ?_, fun y sk items h => ?_,
    fun p hp => anchored_implies_unanchored _ p hp⟩
  · have hskip := processFile_obj_skip fs s hs hm
    exact ⟨hskip, fun r => by simp [step, hskip]⟩
  · obtain ⟨s', sn, hs', hm', hsk, _⟩ := processFile_ok_some_inv fs y sk items h
    rw [hs] at hs'
    injection hs' with h0
    exact ⟨sn, h0 ▸ hm', hsk⟩

theorem c2_season_pattern_witness :
    (reMatchSeason "2026-winter-extra" = none →
        processFile (.obj [("season", .str "2026-winter-extra"), ("items", .arr [])])
          = .ok none
      ∧ ∀ r, step r (.obj [("season", .str "2026-winter-extra"), ("items", .arr [])])
          = .ok r)
  ∧ (∀ y sk items,
        processFile (.obj [("season", .str "2026-winter-extra"), ("items", .arr [])])
          = .ok (some (y, sk, items)) →
        ∃ sn, reMatchSeason "2026-winter-extra" = some (y, sn) ∧ sk = seasonMapGet sn)
  ∧ (∀ p, specSeasonMatch "2026-winter-extra" = some p →
        reMatchSeason "2026-winter-extra" = some p) :=
  c2_season_pattern [("season", .str "2026-winter-extra"), ("items", .arr [])]
    "2026-winter-extra" rfl

/-- Claim C4 counterexample: an unrecognized rating value does not always
pass through unchanged as the emitted r field.  A JSON list rating is an
unhashable key, so the table lookup of `RATING_MAP.get(rating, rating)`
raises a TypeError: an item with rating `[]`, a non-skipped status and a
truthy bgm id makes the run abort instead of emitting a CompactItem with
`r` equal to `[]`. -/
theorem c4_counterexample :
    ratingMapLookup (.arr []) = .error .typeError
  ∧ processItem itemRatingList = .error .typeError
  ∧ processFile fileRatingList = .error .typeError
  ∧ mainOutput [.ok fileRatingList] = .error .typeError :=
  ⟨rfl, rfl, rfl, rfl⟩

/-- Claim C4 amended: the season table maps winter, spring, summer, fall
to the codes 1, 4, 7, 10 and passes any other season name through
unchanged; the rating table maps general to gnr, kids to kids, r18 to
r18 and passes any other hashable value through unchanged — unrecognized
strings, null, booleans and numbers — while a list or dict rating is an
unhashable key whose lookup raises a TypeError; every contributing file's
season code and every emitted CompactItem's r field go through exactly
these maps. -/
theorem c4_maps (s t : String) (j : Json) (data : Json) (y sk : String)
    (items : List Json) (item out : Json)
    (hsn : s ∉ ["winter", "spring", "summer", "fall"])
    (hrt : t ∉ ["general", "kids", "r18"])
    (hj : j = .null ∨ (∃ b, j = .bool b) ∨ (∃ n, j = .num n))
    (hfile : processFile data = .ok (some (y, sk, items)))
    (hitem : processItem item = .ok (some out)) :
    (seasonMapGet "winter" = "1" ∧ seasonMapGet "spring" = "4"
      ∧ seasonMapGet "summer" = "7" ∧ seasonMapGet "fall" = "10")
  ∧ seasonMapGet s = s
  ∧ (ratingMapLookup (.str "general") = .ok (.str "gnr")
      ∧ ratingMapLookup (.str "kids") = .ok (.str "kids")
      ∧ ratingMapLookup (.str "r18") = .ok (.str "r18"))
  ∧ ratingMapLookup (.str t) = .ok (.str t)
  ∧ ratingMapLookup j = .ok j
  ∧ (∀ xs, ratingMapLookup (.arr xs) = .error .typeError)
  ∧ (∀ gs, ratingMapLookup (.obj gs) = .error .typeError)
  ∧ (∃ fs s0 sn, data = .obj fs
      ∧ (alookup fs "season").getD (.str "") = .str s0
      ∧ reMatchSeason s0 = some (y, sn) ∧ sk = seasonMapGet sn)
  ∧ (∃ fs ms idv, item = .obj fs ∧ (alookup fs "mal").getD (.obj []) = .obj ms
      ∧ ratingMapLookup ((alookup ms "rating").getD .null)
          = .ok (ratingMapGet ((alookup ms "rating").getD .null))
      ∧ out = .obj [("id", idv),
          ("m", (alookup ms "media_type").getD .null),
          ("r", ratingMapGet ((alookup ms "rating").getD .null))]) := by
  refine ⟨⟨rfl, rfl, rfl, rfl⟩, ?_, ⟨rfl, rfl, rfl⟩, ?_, ?_,
    fun xs => rfl, fun gs => rfl, ?_, ?_⟩
  · simp only [List.mem_cons, List.not_mem_nil, or_false, not_or] at hsn
    obtain ⟨h1, h2, h3, h4⟩ := hsn
    simp [seasonMapGet, SEASON_MAP, alookup, Ne.symm h1, Ne.symm h2,
      Ne.symm h3, Ne.symm h4]
  · simp only [List.mem_cons, List.not_mem_nil, or_false, not_or] at hrt
    obtain ⟨h1, h2, h3⟩ := hrt
    simp [ratingMapLookup, ratingMapGet, RATING_MAP, alookup,
      Ne.symm h1, Ne.symm h2, Ne.symm h3]
  · rcases hj with rfl | ⟨b, rfl⟩ | ⟨n, rfl⟩
    · rfl
    · rfl
    · rfl
  · cases data with
    | obj fs =>
      obtain ⟨s0, sn, hs0, hm0, hsk0, _⟩ := processFile_ok_some_inv fs y sk items hfile
      exact ⟨fs, s0, sn, rfl, hs0, hm0, hsk0⟩
    | null => rw [processFile_not_obj _ (by intro gs h; cases h)] at hfile; cases hfile
    | bool b => rw [processFile_not_obj _ (by intro gs h; cases h)] at hfile; cases hfile
    | num n => rw [processFile_not_obj _ (by intro gs h; cases h)] at hfile; cases hfile
    | str u => rw [processFile_not_obj _ (by intro gs h; cases h)] at hfile; cases hfile
    | arr xs => rw [processFile_not_obj _ (by intro gs h; cases h)] at hfile; cases hfile
  · obtain ⟨fs, idv, ms, hobj, _, _, _, hms, hrl, hout⟩ :=
      processItem_ok_some item out hitem
    exact ⟨fs, ms, idv, hobj, hms, hrl, hout⟩

theorem c4_maps_witness :
    (seasonMapGet "winter" = "1" ∧ seasonMapGet "spring" = "4"
      ∧ seasonMapGet "summer" = "7" ∧ seasonMapGet "fall" = "10")
  ∧ seasonMapGet "autumn" = "autumn"
  ∧ (ratingMapLookup (.str "general") = .ok (.str "gnr")
      ∧ ratingMapLookup (.str "kids") = .ok (.str "kids")
      ∧ ratingMapLookup (.str "r18") = .ok (.str "r18"))
  ∧ ratingMapLookup (.str "pg") = .ok (.str "pg")
  ∧ ratingMapLookup .null = .ok .null
  ∧ (∀ xs, ratingMapLookup (.arr xs) = .error .typeError)
  ∧ (∀ gs, ratingMapLookup (.obj gs) = .error .typeError)
  ∧ (∃ fs s0 sn, fileEndToEnd = .obj fs
      ∧ (alookup fs "season").getD (.str "") = .str s0
      ∧ reMatchSeason s0 = some ("2026", sn) ∧ "1" = seasonMapGet sn)
  ∧ (∃ fs ms idv, itemConfirmed = .obj fs
      ∧ (alookup fs "mal").getD (.obj []) = .obj ms
      ∧ ratingMapLookup ((alookup ms "rating").getD .null)
          = .ok (ratingMapGet ((alookup ms "rating").getD .null))
      ∧ compactConfirmed = .obj [("id", idv),
          ("m", (alookup ms "media_type").getD .null),
          ("r", ratingMapGet ((alookup ms "rating").getD .null))]) :=
  c4_maps "autumn" "pg" .null fileEndToEnd "2026" "1" [compactConfirmed]
    itemConfirmed compactConfirmed (by decide) (by decide)
    (Or.inl rfl) rfl rfl

/-- Claim C7 helper: an unparsable file anywhere in the list makes the
whole file loop fail with an error, from any accumulator state. -/
theorem loadAndBuild_error (files : List (Except PyError Json)) :
    ∀ acc, (∃ e, Except.error e ∈ files) → ∃ e', loadAndBuild acc files = .error e' := by
  induction files with
  | nil =>
    rintro acc ⟨e, he⟩
    cases he
  | cons f fs ih =>
    rintro acc ⟨e, he⟩
    rcases List.mem_cons.mp he with hf | hf
    · exact ⟨e, by rw [← hf]; rfl⟩
    · cases f with
      | error e2 => exact ⟨e2, rfl⟩
      | ok data =>
        cases hst : step acc data with
        | error e3 => exact ⟨e3, by simp [loadAndBuild, hst]⟩
        | ok acc2 =>
          obtain ⟨e', he'⟩ := ih acc2 ⟨e, hf⟩
          exact ⟨e', by simp [loadAndBuild, hst, he']⟩

/-- Claim C7: if any discovered file fails to parse as JSON, the run
aborts with a propagated error and produces no output document; files
processed before the failure have no visible effect on any output. -/
theorem c7_parse_error_aborts (files : List (Except PyError Json))
    (h : ∃ e, Except.error e ∈ files) :
    ∃ e', mainOutput files = .error e' := by
  obtain ⟨e', he'⟩ := loadAndBuild_error files [] h
  exact ⟨e', by simp [mainOutput, he']⟩

theorem c7_parse_error_aborts_witness :
    ∃ e', mainOutput [.ok fileWinterA, .error .decodeError] = .error e' :=
  c7_parse_error_aborts [.ok fileWinterA, .error .decodeError]
    ⟨.decodeError, by simp⟩

/-- Claim C8: a file whose season matches the pattern contributes an entry
even when its items key is absent (treated as an empty list) or every item
is filtered out: the (year, season code) key is stored mapped to the empty
list, and the final document then contains that key with an empty array. -/
theorem c8_empty_items_stored (fs : List (String × Json)) (s y sn : String)
    (hs : (alookup fs "season").getD (.str "") = .str s)
    (hm : reMatchSeason s = some (y, sn))
    (hitems : alookup fs "items" = none
      ∨ ∃ iv xs, alookup fs "items" = some iv ∧ pyIter iv = .ok xs
          ∧ processItems xs = .ok []) :
    processFile (.obj fs) = .ok (some (y, seasonMapGet sn, []))
  ∧ (∀ r, step r (.obj fs) = .ok (storeResult r y (seasonMapGet sn) []))
  ∧ (∀ r, alookup2 (storeResult r y (seasonMapGet sn) []) y (seasonMapGet sn) = some [])
  ∧ sortResult (storeResult [] y (seasonMapGet sn) [])
      = [(y, [(seasonMapGet sn, [])])] := by
  have h1 : processFile (.obj fs) = .ok (some (y, seasonMapGet sn, [])) := by
    rcases hitems with hnone | ⟨iv, xs, hiv, hit, hpr⟩
    · simp only [processFile, pyGet, hs, hm, hnone]
      rfl
    · simp only [processFile, pyGet, hs, hm, hiv, Option.getD_some, hit, hpr]
  refine ⟨h1, fun r => by simp [step, h1],
    fun r => alookup2_storeResult_self r y _ [], ?_⟩
  simp [storeResult, dictSet, alookup, sortResult, sortInner]

theorem c8_empty_items_stored_witness :
    processFile (.obj [("season", .str "2026-winter")])
      = .ok (some ("2026", seasonMapGet "winter", []))
  ∧ (∀ r, step r (.obj [("season", .str "2026-winter")])
      = .ok (storeResult r "2026" (seasonMapGet "winter") []))
  ∧ (∀ r, alookup2 (storeResult r "2026" (seasonMapGet "winter") [])
      "2026" (seasonMapGet "winter") = some [])
  ∧ sortResult (storeResult [] "2026" (seasonMapGet "winter") [])
      = [("2026", [(seasonMapGet "winter", [])])] :=
  c8_empty_items_stored [("season", .str "2026-winter")] "2026-winter" "2026" "winter"
    rfl rfl (Or.inl rfl)

/-! Sorting lemmas for the final document. -/

theorem seasonOrder_le_99 (k : String) : seasonOrder k ≤ 99 := by
  simp only [seasonOrder, SEASON_ORDER, alookup]
  split_ifs <;> simp

theorem isCanon_false_eq_99 (k : String) (h : isCanon k = false) :
    seasonOrder k = 99 := by
  simpa [isCanon] using h

theorem filter_orderedInsert_noncanon (x : String) (hx : seasonOrder x = 99)
    (m : List String) :
    (List.orderedInsert seasonLe x m).filter (fun k => !isCanon k)
      = x :: m.filter (fun k => !isCanon k) := by
  induction m with
  | nil => simp [List.orderedInsert, List.filter, isCanon, hx]
  | cons b l ih =>
    simp only [List.orderedInsert]
    by_cases hle : seasonLe x b
    · have hle' : (99 : Nat) ≤ seasonOrder b := by simpa [seasonLe, hx] using hle
      have hb : seasonOrder b = 99 := le_antisymm (seasonOrder_le_99 b) hle'
      rw [if_pos hle]
      simp [List.filter_cons, isCanon, hx, hb]
    · rw [if_neg hle]
      have hbne : ¬seasonOrder b = 99 := fun hbe => hle (by simp [seasonLe, hx, hbe])
      have hbf : (!isCanon b) = false := by simp [isCanon, hbne]
      rw [List.filter_cons_of_neg (by simp [hbf]), ih,
        List.filter_cons_of_neg (by simp [hbf])]

theorem filter_orderedInsert_canon (x : String) (hx : isCanon x = true)
    (m : List String) :
    (List.orderedInsert seasonLe x m).filter (fun k => !isCanon k)
      = m.filter (fun k => !isCanon k) := by
  induction m with
  | nil => simp [List.orderedInsert, List.filter, hx]
  | cons b l ih =>
    simp only [List.orderedInsert]
    by_cases hle : seasonLe x b
    · rw [if_pos hle]
      simp [List.filter_cons, hx]
    · rw [if_neg hle]
      simp [List.filter_cons, ih]

theorem filter_insertionSort_noncanon (ks : List String) :
    (List.insertionSort seasonLe ks).filter (fun k => !isCanon k)
      = ks.filter (fun k => !isCanon k) := by
  induction ks with
  | nil => rfl
  | cons x l ih =>
    simp only [List.insertionSort]
    cases hx : isCanon x
    · rw [filter_orderedInsert_noncanon x (isCanon_false_eq_99 x hx), ih]
      simp [List.filter_cons, hx]
    · rw [filter_orderedInsert_canon x hx, ih]
      simp [List.filter_cons, hx]

theorem map_fst_pairing {α : Type} (g : String → α) (ks : List String) :
    (ks.map fun k => (k, g k)).map Prod.fst = ks := by
  induction ks with
  | nil => rfl
  | cons k l ih => simp [ih]

theorem map_fst_sortInner (inner : InnerDict) :
    (sortInner inner).map Prod.fst
      = List.insertionSort seasonLe (inner.map Prod.fst) := by
  unfold sortInner
  exact map_fst_pairing _ _

theorem map_fst_sortResult (result : ResultDict) :
    (sortResult result).map Prod.fst
      = List.insertionSort stringLe (result.map Prod.fst) := by
  unfold sortResult
  exact map_fst_pairing _ _

theorem mem_sortResult (result : ResultDict) (y : String) (inner : InnerDict)
    (h : (y, inner) ∈ sortResult result) :
    inner = sortInner ((alookup result y).getD []) := by
  unfold sortResult at h
  rcases List.mem_map.mp h with ⟨k, _, he⟩
  obtain ⟨h1, h2⟩ := Prod.ext_iff.mp he
  subst h1
  exact h2.symm

/-- Claim C5: in the final document the year keys appear in ascending
lexicographic order and are exactly the accumulated years; within each
year the season-code keys are sorted by the canonical quarter order
1 < 4 < 7 < 10, every non-canonical code sorts after all canonical ones,
and the non-canonical codes keep their relative insertion order. -/
theorem c5_sort_order (result : ResultDict) (y : String) (inner : InnerDict)
    (hmem : (y, inner) ∈ sortResult result) :
    List.Sorted stringLe ((sortResult result).map Prod.fst)
  ∧ ((sortResult result).map Prod.fst).Perm (result.map Prod.fst)
  ∧ List.Sorted seasonLe (inner.map Prod.fst)
  ∧ (inner.map Prod.fst).filter (fun k => !isCanon k)
      = (((alookup result y).getD []).map Prod.fst).filter (fun k => !isCanon k)
  ∧ (inner.map Prod.fst).Perm (((alookup result y).getD []).map Prod.fst) := by
  have hin := mem_sortResult result y inner hmem
  subst hin
  refine ⟨?_, ?_, ?_, ?_, ?_⟩
  · rw [map_fst_sortResult]
    exact List.sorted_insertionSort stringLe _
  · rw [map_fst_sortResult]
    exact List.perm_insertionSort stringLe _
  · rw [map_fst_sortInner]
    exact List.sorted_insertionSort seasonLe _
  · rw [map_fst_sortInner]
    exact filter_insertionSort_noncanon _
  · rw [map_fst_sortInner]
    exact List.perm_insertionSort seasonLe _

theorem c5_sort_order_witness :
    List.Sorted stringLe ((sortResult exSortInput).map Prod.fst)
  ∧ ((sortResult exSortInput).map Prod.fst).Perm (exSortInput.map Prod.fst)
  ∧ List.Sorted seasonLe (exSortedInner.map Prod.fst)
  ∧ (exSortedInner.map Prod.fst).filter (fun k => !isCanon k)
      = (((alookup exSortInput "2025").getD []).map Prod.fst).filter (fun k => !isCanon k)
  ∧ (exSortedInner.map Prod.fst).Perm
      (((alookup exSortInput "2025").getD []).map Prod.fst) :=
  c5_sort_order exSortInput "2025" exSortedInner
    (show ("2025", exSortedInner) ∈ [("2025", exSortedInner)] from List.Mem.head _)

/-! Infrastructure for order-independence (claim C3): how the result
mapping built by the file loop depends on the contributed triples. -/

theorem mem_keys_iff_alookup {α : Type} (m : List (String × α)) (k : String) :
    k ∈ m.map Prod.fst ↔ ∃ v, alookup m k = some v := by
  induction m with
  | nil => simp [alookup]
  | cons p rest ih =>
    obtain ⟨k', v'⟩ := p
    by_cases h : k' = k
    · subst h
      simp [alookup]
    · have h' : ¬k = k' := fun e => h e.symm
      simp [alookup, h, h', ih]

theorem keys_dictSet {α : Type} (d : List (String × α)) (k : String) (v : α)
    (q : String) :
    q ∈ (dictSet d k v).map Prod.fst ↔ q ∈ d.map Prod.fst ∨ q = k := by
  induction d with
  | nil => simp [dictSet]
  | cons p rest ih =>
    obtain ⟨k', v'⟩ := p
    by_cases h : k' = k
    · subst h
      simp [dictSet]
      tauto
    · simp [dictSet, h, ih]
      tauto

theorem nodup_keys_dictSet {α : Type} (d : List (String × α)) (k : String) (v : α)
    (h : (d.map Prod.fst).Nodup) : ((dictSet d k v).map Prod.fst).Nodup := by
  induction d with
  | nil => simp [dictSet]
  | cons p rest ih =>
    obtain ⟨k', v'⟩ := p
    simp only [List.map_cons, List.nodup_cons] at h
    obtain ⟨hk', hrest⟩ := h
    by_cases hh : k' = k
    · subst hh
      rw [show dictSet ((k', v') :: rest) k' v = (k', v) :: rest from by simp [dictSet]]
      simp only [List.map_cons, List.nodup_cons]
      exact ⟨hk', hrest⟩
    · rw [show dictSet ((k', v') :: rest) k v = (k', v') :: dictSet rest k v from by
        simp [dictSet, hh]]
      simp only [List.map_cons, List.nodup_cons]
      refine ⟨?_, ih hrest⟩
      rw [keys_dictSet]
      rintro (hmem | rfl)
      · exact hk' hmem
      · exact hh rfl

theorem alookup_storeResult (r : ResultDict) (y sk : String) (its : List Json)
    (q : String) :
    alookup (storeResult r y sk its) q
      = if q = y then some (dictSet ((alookup r y).getD []) sk its)
        else alookup r q := by
  unfold storeResult
  by_cases h : q = y
  · subst h
    rw [if_pos rfl]
    exact alookup_dictSet_self _ _ _
  · rw [if_neg h]
    exact alookup_dictSet_ne _ _ _ _ h

theorem alookup2_of_year (r : ResultDict) (y sk : String) (i : InnerDict)
    (h : alookup r y = some i) : alookup2 r y sk = alookup i sk := by
  unfold alookup2
  rw [h]

theorem alookup2_some_outer (r : ResultDict) (y sk : String) (its : List Json)
    (h : alookup2 r y sk = some its) : ∃ i, alookup r y = some i := by
  unfold alookup2 at h
  cases hy : alookup r y with
  | none => rw [hy] at h; cases h
  | some i => exact ⟨i, rfl⟩

theorem foldStore_outer_nodup (ts : List (String × String × List Json)) :
    ∀ acc : ResultDict, (acc.map Prod.fst).Nodup →
      ((foldStore acc ts).map Prod.fst).Nodup := by
  induction ts with
  | nil => intro acc h; simpa [foldStore] using h
  | cons t ts' ih =>
    intro acc hacc
    simp only [foldStore, List.foldl_cons]
    exact ih _ (by unfold storeTriple storeResult; exact nodup_keys_dictSet _ _ _ hacc)

theorem foldStore_inner_nodup (ts : List (String × String × List Json)) :
    ∀ acc : ResultDict,
      (∀ y i, alookup acc y = some i → (i.map Prod.fst).Nodup) →
      ∀ y i, alookup (foldStore acc ts) y = some i → (i.map Prod.fst).Nodup := by
  induction ts with
  | nil => intro acc h; simpa [foldStore] using h
  | cons t ts' ih =>
    intro acc hacc
    simp only [foldStore, List.foldl_cons]
    apply ih
    intro y i hy
    rw [storeTriple, alookup_storeResult] at hy
    by_cases hq : y = t.1
    · rw [if_pos hq] at hy
      cases hy
      apply nodup_keys_dictSet
      cases halo : alookup acc t.1 with
      | none => simp
      | some i0 => simpa using hacc _ _ halo
    · rw [if_neg hq] at hy
      exact hacc _ _ hy

theorem foldStore_lookup2_absent (ts : List (String × String × List Json))
    (y sk : String) :
    ∀ acc : ResultDict, (∀ t ∈ ts, ¬(t.1 = y ∧ t.2.1 = sk)) →
      alookup2 (foldStore acc ts) y sk = alookup2 acc y sk := by
  induction ts with
  | nil => intro acc _; rfl
  | cons t ts' ih =>
    intro acc habs
    simp only [foldStore, List.foldl_cons]
    have h2 := ih (storeTriple acc t)
      (fun t' ht' => habs t' (List.mem_cons_of_mem _ ht'))
    rw [show List.foldl storeTriple (storeTriple acc t) ts'
        = foldStore (storeTriple acc t) ts' from rfl, h2]
    unfold storeTriple
    apply alookup2_storeResult_ne
    have hh := habs t (List.mem_cons_self t ts')
    by_cases hy : y = t.1
    · exact Or.inr fun hsk => hh ⟨hy.symm, hsk.symm⟩
    · exact Or.inl hy

theorem foldStore_lookup2_present (ts : List (String × String × List Json))
    (y sk : String) (its : List Json) :
    ∀ acc : ResultDict, (y, sk, its) ∈ ts →
      ts.Pairwise (fun a b => (a.1, a.2.1) ≠ (b.1, b.2.1)) →
      alookup2 (foldStore acc ts) y sk = some its := by
  induction ts with
  | nil => intro acc h _; cases h
  | cons t ts' ih =>
    intro acc hmem hpair
    simp only [foldStore, List.foldl_cons]
    rw [show List.foldl storeTriple (storeTriple acc t) ts'
        = foldStore (storeTriple acc t) ts' from rfl]
    rcases List.mem_cons.mp hmem with heq | hmem'
    · subst heq
      have habs : ∀ t' ∈ ts', ¬(t'.1 = y ∧ t'.2.1 = sk) := by
        intro t' ht' hand
        have hne := (List.pairwise_cons.mp hpair).1 t' ht'
        exact hne (by simp [hand.1, hand.2])
      rw [foldStore_lookup2_absent ts' y sk _ habs]
      exact alookup2_storeResult_self acc y sk its
    · exact ih _ hmem' (List.pairwise_cons.mp hpair).2

theorem foldStore_lookup2_some (ts : List (String × String × List Json))
    (y sk : String) (its : List Json) :
    ∀ acc : ResultDict, alookup2 (foldStore acc ts) y sk = some its →
      (y, sk, its) ∈ ts ∨ alookup2 acc y sk = some its := by
  induction ts with
  | nil => intro acc h; exact Or.inr h
  | cons t ts' ih =>
    intro acc h
    simp only [foldStore, List.foldl_cons] at h
    rcases ih (storeTriple acc t) h with hmem | hacc
    · exact Or.inl (List.mem_cons_of_mem _ hmem)
    · by_cases hy : y = t.1
      · by_cases hsk : sk = t.2.1
        · subst hy
          subst hsk
          rw [storeTriple, alookup2_storeResult_self] at hacc
          cases hacc
          exact Or.inl (List.Mem.head _)
        · rw [storeTriple, alookup2_storeResult_ne _ _ _ _ _ _ (Or.inr hsk)] at hacc
          exact Or.inr hacc
      · rw [storeTriple, alookup2_storeResult_ne _ _ _ _ _ _ (Or.inl hy)] at hacc
        exact Or.inr hacc

theorem foldStore_year_some (ts : List (String × String × List Json))
    (y : String) :
    ∀ (acc : ResultDict) (i : InnerDict), alookup (foldStore acc ts) y = some i →
      (∃ sk its, (y, sk, its) ∈ ts) ∨ ∃ i0, alookup acc y = some i0 := by
  induction ts with
  | nil => intro acc i h; exact Or.inr ⟨i, h⟩
  | cons t ts' ih =>
    intro acc i h
    simp only [foldStore, List.foldl_cons] at h
    rcases ih _ _ h with hex | ⟨i0, hi0⟩
    · obtain ⟨sk, its, hm⟩ := hex
      exact Or.inl ⟨sk, its, List.mem_cons_of_mem _ hm⟩
    · rw [storeTriple, alookup_storeResult] at hi0
      by_cases hy : y = t.1
      · exact Or.inl ⟨t.2.1, t.2.2, by rw [hy]; exact List.Mem.head _⟩
      · rw [if_neg hy] at hi0
        exact Or.inr ⟨i0, hi0⟩

theorem pairwise_key_unique (ts : List (String × String × List Json))
    (hpair : ts.Pairwise (fun a b => (a.1, a.2.1) ≠ (b.1, b.2.1)))
    (y sk : String) (a b : List Json)
    (ha : (y, sk, a) ∈ ts) (hb : (y, sk, b) ∈ ts) : a = b := by
  induction ts with
  | nil => cases ha
  | cons t ts' ih =>
    rcases List.mem_cons.mp ha with ha1 | ha2 <;>
      rcases List.mem_cons.mp hb with hb1 | hb2
    · exact congrArg (fun p => p.2.2) (ha1.trans hb1.symm)
    · exfalso
      have hne := (List.pairwise_cons.mp hpair).1 (y, sk, b) hb2
      rw [← ha1] at hne
      exact hne rfl
    · exfalso
      have hne := (List.pairwise_cons.mp hpair).1 (y, sk, a) ha2
      rw [← hb1] at hne
      exact hne rfl
    · exact ih (List.pairwise_cons.mp hpair).2 ha2 hb2

theorem canonOfOrder_seasonOrder (k : String) (h : isCanon k = true) :
    canonOfOrder (seasonOrder k) = k := by
  by_cases h1 : ("1" : String) = k
  · subst h1; rfl
  · by_cases h2 : ("4" : String) = k
    · subst h2; rfl
    · by_cases h3 : ("7" : String) = k
      · subst h3; rfl
      · by_cases h4 : ("10" : String) = k
        · subst h4; rfl
        · exfalso
          have h99 : seasonOrder k = 99 := by
            simp [seasonOrder, SEASON_ORDER, alookup, h1, h2, h3, h4]
          simp [isCanon, h99] at h

theorem sorted_canon_eq (ks1 ks2 : List String) (hp : ks1.Perm ks2)
    (hc1 : ∀ k ∈ ks1, isCanon k = true)
    (hs1 : List.Sorted seasonLe ks1) (hs2 : List.Sorted seasonLe ks2) :
    ks1 = ks2 := by
  have hc2 : ∀ k ∈ ks2, isCanon k = true := fun k hk => hc1 k (hp.mem_iff.mpr hk)
  have hmp : (ks1.map seasonOrder).Perm (ks2.map seasonOrder) := hp.map _
  have hms1 : List.Sorted (fun a b : Nat => a ≤ b) (ks1.map seasonOrder) :=
    List.pairwise_map.mpr hs1
  have hms2 : List.Sorted (fun a b : Nat => a ≤ b) (ks2.map seasonOrder) :=
    List.pairwise_map.mpr hs2
  have heq : ks1.map seasonOrder = ks2.map seasonOrder :=
    List.eq_of_perm_of_sorted hmp hms1 hms2
  calc ks1 = (ks1.map seasonOrder).map canonOfOrder := by
        rw [List.map_map]
        exact ((List.map_congr_left
          fun k hk => canonOfOrder_seasonOrder k (hc1 k hk)).trans (List.map_id _)).symm
    _ = (ks2.map seasonOrder).map canonOfOrder := by rw [heq]
    _ = ks2 := by
        rw [List.map_map]
        exact (List.map_congr_left
          fun k hk => canonOfOrder_seasonOrder k (hc2 k hk)).trans (List.map_id _)

theorem sortInner_eq_of (i1 i2 : InnerDict)
    (hmem : ∀ k, k ∈ i1.map Prod.fst ↔ k ∈ i2.map Prod.fst)
    (hval : ∀ k, alookup i1 k = alookup i2 k)
    (hcanon : ∀ k ∈ i1.map Prod.fst, isCanon k = true)
    (hn1 : (i1.map Prod.fst).Nodup) (hn2 : (i2.map Prod.fst).Nodup) :
    sortInner i1 = sortInner i2 := by
  have hperm : (i1.map Prod.fst).Perm (i2.map Prod.fst) :=
    (List.perm_ext_iff_of_nodup hn1 hn2).mpr hmem
  have hkeys : List.insertionSort seasonLe (i1.map Prod.fst)
      = List.insertionSort seasonLe (i2.map Prod.fst) := by
    apply sorted_canon_eq
    · exact (List.perm_insertionSort _ _).trans
        (hperm.trans (List.perm_insertionSort _ _).symm)
    · intro k hk
      exact hcanon k ((List.perm_insertionSort seasonLe _).mem_iff.mp hk)
    · exact List.sorted_insertionSort _ _
    · exact List.sorted_insertionSort _ _
  unfold sortInner
  rw [hkeys]
  apply List.map_congr_left
  intro k _
  rw [hval k]

theorem sortResult_eq_of (r1 r2 : ResultDict)
    (hmemY : ∀ y, y ∈ r1.map Prod.fst ↔ y ∈ r2.map Prod.fst)
    (hn1 : (r1.map Prod.fst).Nodup) (hn2 : (r2.map Prod.fst).Nodup)
    (hinner : ∀ y i1 i2, alookup r1 y = some i1 → alookup r2 y = some i2 →
      sortInner i1 = sortInner i2) :
    sortResult r1 = sortResult r2 := by
  have hperm : (r1.map Prod.fst).Perm (r2.map Prod.fst) :=
    (List.perm_ext_iff_of_nodup hn1 hn2).mpr hmemY
  have hkeys : List.insertionSort stringLe (r1.map Prod.fst)
      = List.insertionSort stringLe (r2.map Prod.fst) :=
    List.eq_of_perm_of_sorted
      ((List.perm_insertionSort _ _).trans
        (hperm.trans (List.perm_insertionSort _ _).symm))
      (List.sorted_insertionSort _ _) (List.sorted_insertionSort _ _)
  unfold sortResult
  rw [hkeys]
  apply List.map_congr_left
  intro y hy
  have hy2 : y ∈ r2.map Prod.fst :=
    (List.perm_insertionSort stringLe _).mem_iff.mp hy
  have hy1 : y ∈ r1.map Prod.fst := (hmemY y).mpr hy2
  obtain ⟨i1, hi1⟩ := (mem_keys_iff_alookup r1 y).mp hy1
  obtain ⟨i2, hi2⟩ := (mem_keys_iff_alookup r2 y).mp hy2
  rw [hi1, hi2]
  simp only [Option.getD_some]
  rw [hinner y i1 i2 hi1 hi2]

theorem loadAndBuild_ok (l : List Json) :
    ∀ acc : ResultDict, (∀ f ∈ l, ∃ r, processFile f = .ok r) →
      loadAndBuild acc (l.map Except.ok) = .ok (foldStore acc (contribs l)) := by
  induction l with
  | nil => intro acc _; rfl
  | cons f fs ih =>
    intro acc hok
    obtain ⟨r, hr⟩ := hok f (List.mem_cons_self f fs)
    have hok' : ∀ g ∈ fs, ∃ r, processFile g = .ok r :=
      fun g hg => hok g (List.mem_cons_of_mem _ hg)
    cases r with
    | none =>
      have hstep : step acc f = .ok acc := by simp [step, hr]
      have hcon : contribs (f :: fs) = contribs fs := by
        simp [contribs, List.filterMap_cons, hr]
      simp only [List.map_cons, loadAndBuild, hstep, hcon]
      exact ih acc hok'
    | some t =>
      obtain ⟨y, sk, its⟩ := t
      have hstep : step acc f = .ok (storeResult acc y sk its) := by simp [step, hr]
      have hcon : contribs (f :: fs) = (y, sk, its) :: contribs fs := by
        simp [contribs, List.filterMap_cons, hr]
      simp only [List.map_cons, loadAndBuild, hstep, hcon]
      exact ih (storeResult acc y sk its) hok'

theorem mainOutput_ok_files (l : List Json)
    (hok : ∀ f ∈ l, ∃ r, processFile f = .ok r) :
    mainOutput (l.map Except.ok) = .ok (sortResult (foldStore [] (contribs l))) := by
  simp [mainOutput, loadAndBuild_ok l [] hok]

theorem foldStore_year_mem (ts : List (String × String × List Json))
    (hpair : ts.Pairwise (fun a b => (a.1, a.2.1) ≠ (b.1, b.2.1))) (y : String) :
    y ∈ (foldStore [] ts).map Prod.fst ↔ ∃ sk its, (y, sk, its) ∈ ts := by
  constructor
  · intro hy
    obtain ⟨i, hi⟩ := (mem_keys_iff_alookup _ y).mp hy
    rcases foldStore_year_some ts y [] i hi with hex | ⟨i0, hi0⟩
    · exact hex
    · simp [alookup] at hi0
  · rintro ⟨sk, its, hm⟩
    have h2 := foldStore_lookup2_present ts y sk its [] hm hpair
    obtain ⟨i, hi⟩ := alookup2_some_outer _ _ _ _ h2
    exact (mem_keys_iff_alookup _ y).mpr ⟨i, hi⟩

theorem foldStore_lookup2_iff (ts : List (String × String × List Json))
    (hpair : ts.Pairwise (fun a b => (a.1, a.2.1) ≠ (b.1, b.2.1)))
    (y sk : String) (its : List Json) :
    alookup2 (foldStore [] ts) y sk = some its ↔ (y, sk, its) ∈ ts := by
  constructor
  · intro h
    rcases foldStore_lookup2_some ts y sk its [] h with hm | habs
    · exact hm
    · simp [alookup2, alookup] at habs
  · intro hm
    exact foldStore_lookup2_present ts y sk its [] hm hpair

/-- Claim C3 counterexample: the output is not invariant under the
processing order of the files.  Two files resolving to the same
(year, season code) pair overwrite each other last-wins, so the two
processing orders of `fileWinterA` and `fileWinterB` produce different
final documents. -/
theorem c3_counterexample :
    ([Except.ok fileWinterA, Except.ok fileWinterB]
        : List (Except PyError Json)).Perm
      [Except.ok fileWinterB, Except.ok fileWinterA]
  ∧ mainOutput [.ok fileWinterA, .ok fileWinterB]
      = .ok [("2026", [("1", [compactOf 2])])]
  ∧ mainOutput [.ok fileWinterB, .ok fileWinterA]
      = .ok [("2026", [("1", [compactOf 1])])]
  ∧ mainOutput [.ok fileWinterA, .ok fileWinterB]
      ≠ mainOutput [.ok fileWinterB, .ok fileWinterA] := by
  refine ⟨List.Perm.swap _ _ _, rfl, rfl, fun h => ?_⟩
  have h' : (Except.ok [("2026", [("1", [compactOf 2])])] : Except PyError ResultDict)
      = .ok [("2026", [("1", [compactOf 1])])] := h
  simp [compactOf] at h'

/-- Claim C3 amended: the final document is independent of the processing
order of the files provided every file processes without error, no two
files resolve to the same (year, season code) pair, and every season code
is canonical: under these hypotheses any permutation of the file list
yields the same output document.  (Without them the claim fails: duplicate
(year, season code) pairs are resolved last-processed-wins, and the
relative order of two non-canonical season codes within one year follows
insertion order.) -/
theorem c3_order_independence (l1 l2 : List Json)
    (hperm : l1.Perm l2)
    (hok : ∀ f ∈ l1, ∃ r, processFile f = .ok r)
    (hdist : (contribs l1).Pairwise (fun a b => (a.1, a.2.1) ≠ (b.1, b.2.1)))
    (hcanon : ∀ t ∈ contribs l1, isCanon t.2.1 = true) :
    mainOutput (l1.map Except.ok) = mainOutput (l2.map Except.ok) := by
  have hok2 : ∀ f ∈ l2, ∃ r, processFile f = .ok r :=
    fun f hf => hok f (hperm.mem_iff.mpr hf)
  have hcp : (contribs l1).Perm (contribs l2) := hperm.filterMap _
  have hdist2 : (contribs l2).Pairwise (fun a b => (a.1, a.2.1) ≠ (b.1, b.2.1)) :=
    (List.Perm.pairwise_iff (fun h => Ne.symm h) hcp).mp hdist
  rw [mainOutput_ok_files l1 hok, mainOutput_ok_files l2 hok2]
  congr 1
  apply sortResult_eq_of
  · intro y
    rw [foldStore_year_mem _ hdist y, foldStore_year_mem _ hdist2 y]
    constructor
    · rintro ⟨sk, its, hm⟩
      exact ⟨sk, its, hcp.mem_iff.mp hm⟩
    · rintro ⟨sk, its, hm⟩
      exact ⟨sk, its, hcp.mem_iff.mpr hm⟩
  · exact foldStore_outer_nodup _ [] (by simp)
  · exact foldStore_outer_nodup _ [] (by simp)
  · intro y i1 i2 hi1 hi2
    have key1 : ∀ sk its, alookup i1 sk = some its ↔ (y, sk, its) ∈ contribs l1 := by
      intro sk its
      rw [← alookup2_of_year _ _ sk _ hi1]
      exact foldStore_lookup2_iff _ hdist y sk its
    have key2 : ∀ sk its, alookup i2 sk = some its ↔ (y, sk, its) ∈ contribs l2 := by
      intro sk its
      rw [← alookup2_of_year _ _ sk _ hi2]
      exact foldStore_lookup2_iff _ hdist2 y sk its
    apply sortInner_eq_of
    · intro sk
      rw [mem_keys_iff_alookup, mem_keys_iff_alookup]
      constructor
      · rintro ⟨its, hits⟩
        exact ⟨its, (key2 sk its).mpr (hcp.mem_iff.mp ((key1 sk its).mp hits))⟩
      · rintro ⟨its, hits⟩
        exact ⟨its, (key1 sk its).mpr (hcp.mem_iff.mpr ((key2 sk its).mp hits))⟩
    · intro sk
      cases h1 : alookup i1 sk with
      | some its =>
        exact ((key2 sk its).mpr (hcp.mem_iff.mp ((key1 sk its).mp h1))).symm
      | none =>
        cases h2 : alookup i2 sk with
        | none => rfl
        | some its =>
          have h3 := (key1 sk its).mpr (hcp.mem_iff.mpr ((key2 sk its).mp h2))
          cases h3.symm.trans h1
    · intro sk hsk
      obtain ⟨its, hits⟩ := (mem_keys_iff_alookup i1 sk).mp hsk
      exact hcanon (y, sk, its) ((key1 sk its).mp hits)
    · exact foldStore_inner_nodup _ []
        (by intro y' i' h'; simp [alookup] at h') y i1 hi1
    · exact foldStore_inner_nodup _ []
        (by intro y' i' h'; simp [alookup] at h') y i2 hi2

theorem c3_order_independence_witness :
    mainOutput ([fileWinterA, fileSummer].map Except.ok)
      = mainOutput ([fileSummer, fileWinterA].map Except.ok) :=
  c3_order_independence [fileWinterA, fileSummer] [fileSummer, fileWinterA]
    (List.Perm.swap _ _ _)
    (by
      intro f hf
      rcases List.mem_cons.mp hf with rfl | hf2
      · exact ⟨some ("2026", "1", [compactOf 1]), rfl⟩
      · rcases List.mem_cons.mp hf2 with rfl | hf3
        · exact ⟨some ("2025", "7", []), rfl⟩
        · cases hf3)
    (by decide)
    (by decide)

end MergeRelease
